import Mathlib

/-!
Verification of the minitunnel relay: a shallow embedding of the server
(tunnel session, registry, HTTP router) and the client connector
(reconnect backoff loop, local dispatcher write path), with theorems
checking the specification claims against the embedded code.
-/

namespace Minitunnel

/-- Modelled from the spec: the wire Request message of `internal/protocol`
(not present under src/): `id`, `method`, `path`, `headers` (name to
pre-joined single string), `body`. -/
structure Request where
  id : String
  method : String
  path : String
  headers : List (String × String)
  body : String
deriving DecidableEq, Repr

/-- Modelled from the spec: the wire Response message of `internal/protocol`
(not present under src/): `id`, `status`, `headers`, `body`. -/
structure Response where
  id : String
  status : Nat
  headers : List (String × String)
  body : String
deriving DecidableEq, Repr

/-! ### Tunnel registry (src/unnamed/part_000 server, `registry`)

The Go registry is a mutex-guarded `map[string]*tunnel`; we embed the map
as a function from names to an optional session handle (Go map lookup
returns the zero value `nil` when absent). -/

/-- The registry map `tunnels map[string]*tunnel`, with session handles of
an arbitrary type. -/
def Registry (α : Type) : Type := String → Option α

/-- `registry.register`: installs the mapping, overwriting any existing
entry for the same name (Go map assignment). -/
def Registry.register (r : Registry α) (name : String) (t : α) : Registry α :=
  fun k => if k = name then some t else r k

/-- `registry.unregister`: `delete(r.tunnels, name)` — removes the mapping
if present, a no-op otherwise (Go `delete` on an absent key does nothing). -/
def Registry.unregister (r : Registry α) (name : String) : Registry α :=
  fun k => if k = name then none else r k

/-- `registry.get`: map lookup, `nil` (`none`) when absent. -/
def Registry.get (r : Registry α) (name : String) : Option α := r name

/-- The empty registry `make(map[string]*tunnel)`. -/
def Registry.empty (α : Type) : Registry α := fun _ => none

/-! ### HTTP router path parsing (server `mux.HandleFunc "/"`)

The handler does `path := strings.TrimPrefix(r.URL.Path, "/")`, then
`parts := strings.SplitN(path, "/", 2)`, rejects an empty first segment,
and builds the forwarded path from the remainder plus the raw query. -/

/-- `strings.TrimPrefix(s, "/")`: removes one leading slash if present. -/
def trimLeadingSlash (s : String) : String :=
  match s.data with
  | [] => s
  | c :: cs => if c = '/' then String.mk cs else s

/-- Splits a character list at its first `'/'`: the part before it and the
untouched part after it, or `none` when no slash occurs. -/
def breakAtSlash : List Char → Option (List Char × List Char)
  | [] => none
  | c :: cs =>
    if c = '/' then some ([], cs)
    else
      match breakAtSlash cs with
      | none => none
      | some (a, b) => some (c :: a, b)

/-- `strings.SplitN(s, "/", 2)`: the segment before the first slash and the
untouched remainder; the whole string when no slash occurs (Go yields
`[""]` for the empty string). -/
def splitN2 (s : String) : List String :=
  match breakAtSlash s.data with
  | none => [s]
  | some (a, b) => [String.mk a, String.mk b]

/-- Outcome of the router's path parsing: either a 400 client error
("no service specified in path") or a service name with forwarded path. -/
inductive RouteOutcome where
  | badRequest
  | forward (service : String) (forwardPath : String)
deriving DecidableEq, Repr

/-- The parsing portion of the public handler: strip the leading slash,
split into `(service, remainder)`, default the remainder to `/`, prepend
`/` otherwise, and append `?` plus the raw query when nonempty. -/
def routeParse (urlPath rawQuery : String) : RouteOutcome :=
  let path := trimLeadingSlash urlPath
  let parts := splitN2 path
  match parts with
  | [] => .badRequest
  | first :: rest =>
    if first = "" then .badRequest
    else
      let remainder := match rest with
        | [] => "/"
        | r :: _ => "/" ++ r
      let forwardPath := if rawQuery = "" then remainder else remainder ++ "?" ++ rawQuery
      .forward first forwardPath

/-! ### Tunnel session (server `tunnel`, `send` and the ws read loop)

The session owns a pending table `map[string]chan protocol.Response` and
the connection. We embed the table as `pending : String → Bool` (is the
id currently registered) and the per-id single-slot response channel as
`delivered : String → Option Response` (the one buffered value the read
loop may place into the channel registered under that id; ids are unique
among in-flight requests, so the key identifies the channel). -/

/-- The pending table plus the contents of the per-id response channels. -/
structure LoopState where
  pending : String → Bool
  delivered : String → Option Response

/-- One inbound ws frame: either bytes that fail `json.Unmarshal` into a
Response, or a well-formed Response. -/
inductive Frame where
  | malformed
  | wellFormed (r : Response)
deriving DecidableEq

/-- One iteration body of the server read loop for a successfully read
message `msg` (part of `for` loop in the `/ws` handler): unmarshal — on
failure `continue`; on success look up `pending[resp.ID]` under the lock,
delete the entry if present, and only then send the response into that
channel; an unknown id is silently dropped. -/
def readStep (s : LoopState) (f : Frame) : LoopState :=
  match f with
  | .malformed => s
  | .wellFormed r =>
    if s.pending r.id then
      { pending := fun k => if k = r.id then false else s.pending k
        delivered := fun k => if k = r.id then some r else s.delivered k }
    else s

/-- An event touching the pending table while sends are in flight: a frame
processed by the read loop, or the `time.After` branch of some other
concurrent `send` firing (`delete(t.pending, req.ID)`). -/
inductive PEvent where
  | frame (f : Frame)
  | timeoutFire (id : String)
deriving DecidableEq

/-- Effect of one concurrent event on the session state. The timeout
branch deletes its id unconditionally (Go `delete` is a no-op when the
read loop already removed the entry) and never touches a channel. -/
def pstep (s : LoopState) (e : PEvent) : LoopState :=
  match e with
  | .frame f => readStep s f
  | .timeoutFire id =>
    { s with pending := fun k => if k = id then false else s.pending k }

/-- Errors `tunnel.send` can return: the `conn.WriteJSON` error, or
`http.ErrHandlerTimeout` from the `time.After(30 * time.Second)` branch. -/
inductive TunnelError where
  | writeError
  | handlerTimeout
deriving DecidableEq, Repr

/-- The fixed per-request timeout of `send`: `30 * time.Second`. -/
def sendTimeoutMs : Nat := 30000

/-- Outcome of `conn.WriteJSON(req)` under the write lock. -/
inductive WriteResult where
  | ok
  | fail
deriving DecidableEq

/-- Result of one `tunnel.send` call: the session state it leaves behind
and the value returned to the HTTP handler. -/
structure SendResult where
  state : LoopState
  result : Except TunnelError Response

/-- `t.pending[req.ID] = ch`: register the fresh single-slot channel. -/
def registerWaiter (s : LoopState) (id : String) : LoopState :=
  { s with pending := fun k => if k = id then true else s.pending k }

/-- `delete(t.pending, req.ID)`: remove the waiter (no-op when absent). -/
def removeWaiter (s : LoopState) (id : String) : LoopState :=
  { s with pending := fun k => if k = id then false else s.pending k }

/-- `tunnel.send`: register a fresh single-slot channel under `req.ID`,
write the request; if the write fails delete the entry and return the
error at once. Otherwise the events `evs` interleaved during the wait
(read-loop frames and other sends' timeouts) run; at the 30-second mark
the `select` returns the channel's value if one was delivered, else the
timeout branch deletes the entry and returns `http.ErrHandlerTimeout`. -/
def send (s0 : LoopState) (req : Request) (w : WriteResult) (evs : List PEvent) :
    SendResult :=
  match w with
  | .fail => ⟨removeWaiter (registerWaiter s0 req.id) req.id, .error .writeError⟩
  | .ok =>
    match (List.foldl pstep (registerWaiter s0 req.id) evs).delivered req.id with
    | some r => ⟨List.foldl pstep (registerWaiter s0 req.id) evs, .ok r⟩
    | none =>
      ⟨removeWaiter (List.foldl pstep (registerWaiter s0 req.id) evs) req.id,
        .error .handlerTimeout⟩

/-! ### Session read loop lifecycle (the `/ws` handler)

`conn.ReadMessage` either yields a message or an error; on an error the
loop returns, firing the deferred teardown `reg.unregister(service);
conn.Close()`. -/

/-- One read-loop input: a message was read, or `ReadMessage` failed. -/
inductive ReadEvent where
  | msg (f : Frame)
  | readErr
deriving DecidableEq

/-- Observable outcome of running the read loop over a list of inputs. -/
structure SessionRun where
  loopState : LoopState
  registry : Registry Nat
  connClosed : Bool
  terminated : Bool

/-- The `/ws` handler's read loop with its deferred teardown: process
messages until a read error; the error terminates the loop, unregisters
the service and closes the connection. If the input list runs out the
loop is still blocked in `ReadMessage` (no teardown has run). -/
def runReadLoop (service : String) (s : LoopState) (reg : Registry Nat) :
    List ReadEvent → SessionRun
  | [] => ⟨s, reg, false, false⟩
  | .msg f :: rest => runReadLoop service (readStep s f) reg rest
  | .readErr :: _ => ⟨s, reg.unregister service, true, true⟩

/-! ### Client connector (src/cmd/client/main.go, `runClient` / `connect`)

`runClient` loops: call `connect`; a `nil` return means clean shutdown and
the loop exits; otherwise `attempt++`, compute
`delay = min(1s * 2^attempt, 30s)` and `select` on the stop signal versus
`time.After(delay)`. We embed durations in milliseconds. -/

/-- How one `connect` call ended: `clean` is the `nil` return after a
normal-closure frame; `dialFail` is a failed dial; `sessionDrop` is a
connection that was established and later died with a read error.
`runClient` only sees whether the returned error is `nil`. -/
inductive ConnectOutcome where
  | clean
  | dialFail
  | sessionDrop
deriving DecidableEq, Repr

/-- Whether `connect` returned a non-nil error for this outcome. -/
def connectFailed : ConnectOutcome → Bool
  | .clean => false
  | .dialFail => true
  | .sessionDrop => true

/-- The delay waited when the counter has just been incremented to
`attempt`: `time.Duration(math.Min(float64(time.Second)*math.Pow(2,
float64(attempt)), float64(30*time.Second)))`, in milliseconds. -/
def backoffDelayMs (attempt : Nat) : Nat := min (1000 * 2 ^ attempt) 30000

/-- What a `runClient` execution did: the backoff waits that ran to
completion, and how many `connect` calls were made. -/
structure ClientRun where
  delays : List Nat
  connects : Nat
deriving DecidableEq, Repr

/-- The `runClient` loop over a script: each entry is the outcome of the
next `connect` call paired with whether the stop signal fires during the
wait that follows a failure. A clean return exits the loop; a failure
increments `attempt`, computes the delay from the incremented value, and
waits unless the stop signal fires first, in which case the loop returns
with no further connect attempt. An exhausted script leaves the client
still connected or waiting. -/
def runClientAux (attempt : Nat) : List (ConnectOutcome × Bool) → ClientRun
  | [] => ⟨[], 0⟩
  | (co, stopDuringWait) :: rest =>
    if connectFailed co then
      let a := attempt + 1
      if stopDuringWait then ⟨[], 1⟩
      else
        let r := runClientAux a rest
        ⟨backoffDelayMs a :: r.delays, r.connects + 1⟩
    else ⟨[], 1⟩

/-- `runClient` starts with `attempt := 0`; the counter is local to the
loop and is never written back to 0 afterwards. -/
def runClient (script : List (ConnectOutcome × Bool)) : ClientRun :=
  runClientAux 0 script

/-! ### Local dispatcher write path (`handleRequest`, `writeConn`,
`sendError`)

Every outcome of the local HTTP call is converted into a Response with
the request's correlation id (a real response, or a synthesized 502 via
`sendError`) and handed to `writeConn`, which only logs a write error. -/

/-- Outcome of the client's local HTTP call for one request: the local
service's status/headers/body, or a failure at request construction,
execution, or body read together with its message. -/
inductive LocalResult where
  | success (status : Nat) (headers : List (String × String)) (body : String)
  | failure (msg : String)
deriving DecidableEq

/-- The Response `handleRequest` builds: on success the real
status/headers/body under the request's id; on any failure the
`sendError` 502 Response with the error text as body. -/
def handleResponse (req : Request) (lr : LocalResult) : Response :=
  match lr with
  | .success st hs b => ⟨req.id, st, hs, b⟩
  | .failure msg => ⟨req.id, 502, [], msg⟩

/-- Whether the serialized frame made it onto the wire. -/
inductive WriteOutcome where
  | sent
  | dropped
deriving DecidableEq

/-- `writeConn`: writes the frame under the shared lock; a write error is
logged and discarded — the function has no error return, so the caller
sees nothing and nothing is retried. The model returns what reached the
wire: the frame on success, nothing on a failed write. -/
def writeConn (r : Response) (w : WriteOutcome) : Option Frame :=
  match w with
  | .sent => some (.wellFormed r)
  | .dropped => none

/-! ### Observables for the pending-table race (claim C2)

We count, along an interleaving of read-loop frames and timeout firings,
how many events physically remove a given id from the pending table and
how many events deliver a value into that id's channel. -/

/-- An event that can resolve the pending entry for `id`: a well-formed
Response frame carrying that id, or that send's own timeout firing. -/
def resolves (id : String) : PEvent → Bool
  | .frame .malformed => false
  | .frame (.wellFormed r) => r.id == id
  | .timeoutFire k => k == id

/-- Number of events along the trace that remove `id` from the pending
table (the entry goes from present to absent across the step). -/
def removalCount (s : LoopState) (id : String) : List PEvent → Nat
  | [] => 0
  | e :: rest =>
    (if s.pending id && !((pstep s e).pending id) then 1 else 0)
      + removalCount (pstep s e) id rest

/-- Whether the read loop's `if ok` branch fires for `id` at this event:
a matching well-formed Response found the entry present and sends into
the channel. -/
def fills (s : LoopState) (id : String) : PEvent → Bool
  | .frame (.wellFormed r) => r.id == id && s.pending r.id
  | _ => false

/-- Number of events along the trace that deliver a value into the
channel registered under `id`. -/
def deliveryCount (s : LoopState) (id : String) : List PEvent → Nat
  | [] => 0
  | e :: rest =>
    (if fills s id e then 1 else 0) + deliveryCount (pstep s e) id rest

/-! ### Concrete fixtures used by the witnesses -/

/-- A sample response frame payload. -/
def exResp : Response := ⟨"a", 200, [], "ok"⟩

/-- A sample request whose id matches `exResp`. -/
def exReq : Request := ⟨"a", "GET", "/x", [], ""⟩

/-- A session state with nothing pending and nothing delivered. -/
def exState : LoopState := ⟨fun _ => false, fun _ => none⟩

/-- A session state in which only id `"a"` is pending. -/
def exPending : LoopState := ⟨fun k => k == "a", fun _ => none⟩

/-- Six consecutive connect failures, one of them a dropped session. -/
def exFailures : List ConnectOutcome :=
  [.dialFail, .sessionDrop, .dialFail, .dialFail, .dialFail, .dialFail]

/-! ## Helper lemmas about the session state machine -/

theorem pstep_pending_false (s : LoopState) (e : PEvent) (id : String)
    (h : s.pending id = false) : (pstep s e).pending id = false := by
  cases e with
  | frame f =>
    cases f with
    | malformed => exact h
    | wellFormed r =>
      simp only [pstep, readStep]
      split
      · simp only
        split
        · rfl
        · exact h
      · exact h
  | timeoutFire k =>
    simp only [pstep]
    split
    · rfl
    · exact h

theorem pstep_pending_of_not_resolves (s : LoopState) (e : PEvent) (id : String)
    (h : resolves id e = false) : (pstep s e).pending id = s.pending id := by
  cases e with
  | frame f =>
    cases f with
    | malformed => rfl
    | wellFormed r =>
      have hne : r.id ≠ id := by simpa [resolves] using h
      simp only [pstep, readStep]
      split
      · simp only
        rw [if_neg (fun hh : id = r.id => hne hh.symm)]
      · rfl
  | timeoutFire k =>
    have hne : k ≠ id := by simpa [resolves] using h
    simp only [pstep]
    rw [if_neg (fun hh : id = k => hne hh.symm)]

theorem pstep_pending_of_resolves (s : LoopState) (e : PEvent) (id : String)
    (hp : s.pending id = true) (h : resolves id e = true) :
    (pstep s e).pending id = false := by
  cases e with
  | frame f =>
    cases f with
    | malformed => simp [resolves] at h
    | wellFormed r =>
      have heq : r.id = id := by simpa [resolves] using h
      subst heq
      simp [pstep, readStep, hp]
  | timeoutFire k =>
    have heq : k = id := by simpa [resolves] using h
    subst heq
    simp [pstep]

theorem fills_false_of_not_pending (s : LoopState) (e : PEvent) (id : String)
    (h : s.pending id = false) : fills s id e = false := by
  cases e with
  | timeoutFire k => rfl
  | frame f =>
    cases f with
    | malformed => rfl
    | wellFormed r =>
      by_cases hr : r.id = id
      · subst hr; simp [fills, h]
      · simp [fills, hr]

theorem fills_false_of_not_resolves (s : LoopState) (e : PEvent) (id : String)
    (h : resolves id e = false) : fills s id e = false := by
  cases e with
  | timeoutFire k => rfl
  | frame f =>
    cases f with
    | malformed => rfl
    | wellFormed r =>
      have hne : r.id ≠ id := by simpa [resolves] using h
      simp [fills, hne]

theorem removalCount_of_not_pending (s : LoopState) (id : String) (evs : List PEvent)
    (h : s.pending id = false) : removalCount s id evs = 0 := by
  induction evs generalizing s with
  | nil => rfl
  | cons e rest ih =>
    simp only [removalCount, h, Bool.false_and]
    rw [ih (pstep s e) (pstep_pending_false s e id h)]
    simp

theorem deliveryCount_of_not_pending (s : LoopState) (id : String) (evs : List PEvent)
    (h : s.pending id = false) : deliveryCount s id evs = 0 := by
  induction evs generalizing s with
  | nil => rfl
  | cons e rest ih =>
    simp only [deliveryCount, fills_false_of_not_pending s e id h]
    rw [ih (pstep s e) (pstep_pending_false s e id h)]
    simp

theorem pstep_delivered_ids (s : LoopState) (e : PEvent)
    (hinv : ∀ k q, s.delivered k = some q → q.id = k) :
    ∀ k q, (pstep s e).delivered k = some q → q.id = k := by
  intro k q h
  cases e with
  | timeoutFire i => exact hinv k q h
  | frame f =>
    cases f with
    | malformed => exact hinv k q h
    | wellFormed r =>
      simp only [pstep, readStep] at h
      by_cases hp : s.pending r.id = true
      · rw [if_pos hp] at h
        simp only at h
        by_cases hk : k = r.id
        · rw [if_pos hk] at h
          cases h
          exact hk.symm
        · rw [if_neg hk] at h
          exact hinv k q h
      · rw [if_neg hp] at h
        exact hinv k q h

theorem foldl_pstep_delivered_ids (evs : List PEvent) :
    ∀ s : LoopState, (∀ k q, s.delivered k = some q → q.id = k) →
      ∀ k q, (List.foldl pstep s evs).delivered k = some q → q.id = k := by
  induction evs with
  | nil => intro s hinv; exact hinv
  | cons e rest ih =>
    intro s hinv
    exact ih (pstep s e) (pstep_delivered_ids s e hinv)

theorem pstep_delivered_none (s : LoopState) (e : PEvent) (id : String)
    (h : s.delivered id = none)
    (he : ∀ r : Response, e = .frame (.wellFormed r) → r.id ≠ id) :
    (pstep s e).delivered id = none := by
  cases e with
  | timeoutFire k => exact h
  | frame f =>
    cases f with
    | malformed => exact h
    | wellFormed r =>
      have hr : r.id ≠ id := he r rfl
      simp only [pstep, readStep]
      split
      · simp only
        rw [if_neg (fun hh : id = r.id => hr hh.symm)]
        exact h
      · exact h

theorem foldl_pstep_delivered_none (evs : List PEvent) :
    ∀ s : LoopState, ∀ id : String, s.delivered id = none →
      (∀ e ∈ evs, ∀ r : Response, e = .frame (.wellFormed r) → r.id ≠ id) →
      (List.foldl pstep s evs).delivered id = none := by
  induction evs with
  | nil => intro s id h _; exact h
  | cons e rest ih =>
    intro s id h he
    exact ih (pstep s e) id
      (pstep_delivered_none s e id h (he e (by simp)))
      (fun x hx => he x (by simp [hx]))

theorem runClientAux_all_fail (a : Nat) (pre : List ConnectOutcome)
    (hpre : ∀ x ∈ pre, connectFailed x = true) :
    runClientAux a (pre.map fun x => (x, false))
      = ⟨(List.range pre.length).map fun i => backoffDelayMs (a + 1 + i),
          pre.length⟩ := by
  induction pre generalizing a with
  | nil => rfl
  | cons x pre ih =>
    have hx : connectFailed x = true := hpre x (by simp)
    have hrest : ∀ y ∈ pre, connectFailed y = true := fun y hy => hpre y (by simp [hy])
    simp only [List.map_cons, runClientAux, hx, if_true, Bool.false_eq_true, if_false]
    rw [ih (a + 1) hrest]
    simp only [List.length_cons, List.range_succ_eq_map, List.map_cons, List.map_map]
    congr 1
    congr 1
    apply List.map_congr_left
    intro i _
    simp only [Function.comp_apply]
    congr 1
    omega

theorem runClientAux_stop_connects (a : Nat) (pre : List ConnectOutcome)
    (co : ConnectOutcome) (post : List (ConnectOutcome × Bool))
    (hpre : ∀ x ∈ pre, connectFailed x = true) (hco : connectFailed co = true) :
    (runClientAux a ((pre.map fun x => (x, false)) ++ (co, true) :: post)).connects
      = pre.length + 1 := by
  induction pre generalizing a with
  | nil => simp [runClientAux, hco]
  | cons x pre ih =>
    have hx : connectFailed x = true := hpre x (by simp)
    have hrest : ∀ y ∈ pre, connectFailed y = true := fun y hy => hpre y (by simp [hy])
    simp only [List.map_cons, List.cons_append, runClientAux, hx, if_true,
      Bool.false_eq_true, if_false, List.append_eq, List.length_cons]
    rw [ih (a + 1) hrest]

/-! ## Claim theorems -/

/-- Claim C1: for every request sent through a tunnel session via `send`,
if `send` returns a Response rather than an error, that Response's id
equals the Request's id, even with many concurrent sends with distinct
ids interleaved on the same session (no cross-delivery). The hypothesis
is the session invariant that every value already sitting in a channel
was stored under its own id, which holds of the initial (all-empty)
channel state. -/
theorem send_no_cross_delivery (s0 : LoopState) (req : Request) (w : WriteResult)
    (evs : List PEvent) (r : Response)
    (hinv : ∀ k q, s0.delivered k = some q → q.id = k)
    (hres : (send s0 req w evs).result = .ok r) :
    r.id = req.id := by
  cases w with
  | fail => simp [send] at hres
  | ok =>
    cases hdel : (List.foldl pstep (registerWaiter s0 req.id) evs).delivered req.id with
    | none =>
      unfold send at hres
      rw [hdel] at hres
      simp at hres
    | some q =>
      unfold send at hres
      rw [hdel] at hres
      simp only [Except.ok.injEq] at hres
      subst hres
      exact foldl_pstep_delivered_ids evs (registerWaiter s0 req.id) hinv req.id q hdel

/-- Claim C2: for an id registered in the pending table, the entry is
removed exactly once along any interleaving of read-loop frames and
timeout firings that contains a resolving event for it (a matching
Response or its own timeout), and the channel for that id is delivered
to at most once — never a duplicate completion. (The table is a map, so
the id occurs in it at most once by construction.) -/
theorem pending_resolved_exactly_once (s : LoopState) (id : String) (evs : List PEvent)
    (hp : s.pending id = true) (hr : evs.any (resolves id) = true) :
    removalCount s id evs = 1 ∧ deliveryCount s id evs ≤ 1 := by
  induction evs generalizing s with
  | nil => simp at hr
  | cons e rest ih =>
    by_cases hres : resolves id e = true
    · have hafter : (pstep s e).pending id = false :=
        pstep_pending_of_resolves s e id hp hres
      refine ⟨?_, ?_⟩
      · simp only [removalCount]
        rw [removalCount_of_not_pending (pstep s e) id rest hafter]
        simp [hp, hafter]
      · simp only [deliveryCount]
        rw [deliveryCount_of_not_pending (pstep s e) id rest hafter]
        split <;> simp
    · have hres' : resolves id e = false := by
        cases hcase : resolves id e
        · rfl
        · exact absurd hcase hres
      have hkeep : (pstep s e).pending id = s.pending id :=
        pstep_pending_of_not_resolves s e id hres'
      have hrrest : rest.any (resolves id) = true := by
        simp only [List.any_cons, hres', Bool.false_or] at hr
        exact hr
      obtain ⟨h1, h2⟩ := ih (pstep s e) (hkeep.trans hp) hrrest
      refine ⟨?_, ?_⟩
      · simp only [removalCount]
        rw [h1]
        simp [hp, hkeep]
      · simp only [deliveryCount, fills_false_of_not_resolves s e id hres']
        simpa using h2

/-- Claim C3: if the connection write inside `send` fails, `send` removes
the just-registered waiter, returns the connection error immediately
without processing any events of the wait phase, and leaves the pending
table and channels exactly as they were (net zero), given that the fresh
uuid was not already pending. -/
theorem send_write_failure_net_zero (s0 : LoopState) (req : Request)
    (evs : List PEvent) (h : s0.pending req.id = false) :
    (send s0 req .fail evs).result = .error .writeError
    ∧ (∀ k, (send s0 req .fail evs).state.pending k = s0.pending k)
    ∧ (∀ k, (send s0 req .fail evs).state.delivered k = s0.delivered k)
    ∧ send s0 req .fail evs = send s0 req .fail [] := by
  refine ⟨rfl, ?_, fun _ => rfl, rfl⟩
  intro k
  simp only [send, removeWaiter, registerWaiter]
  by_cases hk : k = req.id
  · subst hk
    simp [h]
  · simp [hk]

/-- Claim C4: after a successful write, `send` resolves in exactly one of
two ways: the read loop filled the waiter and `send` returns that
Response with no error, or the fixed 30-second timeout elapses, in which
case the waiter is removed from the pending table and the timeout error
is returned; never both. -/
theorem send_after_write_exactly_one (s0 : LoopState) (req : Request)
    (evs : List PEvent) :
    ((∃ r, (send s0 req .ok evs).result = .ok r
        ∧ (send s0 req .ok evs).state.delivered req.id = some r)
      ∨ ((send s0 req .ok evs).result = .error .handlerTimeout
        ∧ (send s0 req .ok evs).state.pending req.id = false))
    ∧ ¬(∃ r e, (send s0 req .ok evs).result = .ok r
          ∧ (send s0 req .ok evs).result = .error e)
    ∧ sendTimeoutMs = 30000 := by
  refine ⟨?_, ?_, rfl⟩
  · cases hdel : (List.foldl pstep (registerWaiter s0 req.id) evs).delivered req.id with
    | some r =>
      left
      refine ⟨r, ?_, ?_⟩
      · unfold send
        rw [hdel]
      · unfold send
        rw [hdel]
        exact hdel
    | none =>
      right
      constructor
      · unfold send
        rw [hdel]
      · unfold send
        rw [hdel]
        simp [removeWaiter]
  · rintro ⟨r, e, h1, h2⟩
    rw [h1] at h2
    cases h2

/-- Claim C5 counterexample: the claim says the first retry waits
`min(1s * 2^0, 30s) = 1s` (delay computed before the increment); the code
increments first and waits `min(1s * 2^1, 30s) = 2s` after the first
failure. -/
theorem backoff_first_delay_counterexample :
    (runClient [(.dialFail, false)]).delays = [2000]
    ∧ backoffDelayMs 0 = 1000
    ∧ ([2000] : List Nat) ≠ [1000] :=
  ⟨rfl, rfl, by decide⟩

/-- Claim C5 (amended): the delay before the n-th retry (n = 1, 2, ...) is
`min(1s * 2^n, 30s)` — the counter is incremented before the delay is
computed, so the sequence is 2s, 4s, 8s, 16s, 30s, 30s, ...; and a stop
signal during any wait makes the loop return immediately without another
connect attempt. -/
theorem backoff_delay_sequence (pre : List ConnectOutcome) (co : ConnectOutcome)
    (post : List (ConnectOutcome × Bool))
    (hpre : ∀ x ∈ pre, connectFailed x = true) (hco : connectFailed co = true) :
    (runClient (pre.map fun x => (x, false))).delays
        = (List.range pre.length).map (fun i => backoffDelayMs (i + 1))
    ∧ (runClient ((pre.map fun x => (x, false)) ++ (co, true) :: post)).connects
        = pre.length + 1 := by
  constructor
  · rw [runClient, runClientAux_all_fail 0 pre hpre]
    apply List.map_congr_left
    intro i _
    congr 1
    omega
  · exact runClientAux_stop_connects 0 pre co post hpre hco

/-- Claim C6 counterexample: after three dial failures and then a session
that connected successfully and later dropped, the next delay is 16s —
the continuation of the sequence — not the 2s (or 1s) that a counter
reset to 0 on the successful connection would give. -/
theorem backoff_no_reset_counterexample :
    (runClient [(.dialFail, false), (.dialFail, false), (.dialFail, false),
        (.sessionDrop, false)]).delays = [2000, 4000, 8000, 16000]
    ∧ (16000 : Nat) ≠ 2000 ∧ (16000 : Nat) ≠ 1000 :=
  ⟨rfl, by decide, by decide⟩

/-- Claim C6 (amended): the attempt counter is never reset; after a
session that was successfully established and later dropped, the next
reconnect delay continues the backoff sequence from the accumulated
failure count (capped at 30s) instead of restarting from the base. -/
theorem attempt_never_reset (pre : List ConnectOutcome)
    (hpre : ∀ x ∈ pre, connectFailed x = true) :
    (runClient ((pre ++ [ConnectOutcome.sessionDrop]).map fun x => (x, false))).delays
      = (List.range (pre.length + 1)).map fun i => backoffDelayMs (i + 1) := by
  have hall : ∀ x ∈ pre ++ [ConnectOutcome.sessionDrop], connectFailed x = true := by
    intro x hx
    rcases List.mem_append.mp hx with h | h
    · exact hpre x h
    · simp only [List.mem_singleton] at h
      subst h
      rfl
  rw [runClient, runClientAux_all_fail 0 _ hall]
  have hlen : (pre ++ [ConnectOutcome.sessionDrop]).length = pre.length + 1 := by
    simp
  rw [hlen]
  apply List.map_congr_left
  intro i _
  congr 1
  omega

/-- Claim C7: the router parses `/svcA/api/x` with query `y=1` to service
`svcA` and forwarded path `/api/x?y=1`; `/svcA` with no remainder to
forwarded path `/`; and the bare path `/` to a client-error routing
failure. -/
theorem router_path_parsing :
    routeParse "/svcA/api/x" "y=1" = .forward "svcA" "/api/x?y=1"
    ∧ routeParse "/svcA" "" = .forward "svcA" "/"
    ∧ routeParse "/" "" = .badRequest :=
  ⟨by decide, by decide, by decide⟩

/-- Claim C8: the session read loop continues (state untouched, loop not
terminated) on a deserialization failure; silently drops a Response whose
id has no pending entry; and on a read error terminates, unregisters the
session's registry entry and closes the connection. -/
theorem read_loop_error_handling (service : String) (s : LoopState)
    (reg : Registry Nat) (rest : List ReadEvent) (r : Response)
    (hdrop : s.pending r.id = false) :
    readStep s .malformed = s
    ∧ runReadLoop service s reg (.msg .malformed :: rest)
        = runReadLoop service s reg rest
    ∧ readStep s (.wellFormed r) = s
    ∧ (runReadLoop service s reg (.readErr :: rest)).terminated = true
    ∧ ((runReadLoop service s reg (.readErr :: rest)).registry).get service = none
    ∧ (runReadLoop service s reg (.readErr :: rest)).connClosed = true := by
  refine ⟨rfl, rfl, ?_, rfl, ?_, rfl⟩
  · simp [readStep, hdrop]
  · simp [runReadLoop, Registry.get, Registry.unregister]

/-- Claim C9: `register` installs the mapping and overwrites an existing
session for the same name (last writer wins), leaving other names alone;
`unregister` removes the mapping when present and is a pointwise no-op
otherwise; lookup of an unregistered name reports absence. -/
theorem registry_semantics (α : Type) (r : Registry α) (n k : String) (t t2 : α) :
    (r.register n t).get n = some t
    ∧ ((r.register n t2).register n t).get n = some t
    ∧ (k ≠ n → (r.register n t).get k = r.get k)
    ∧ (r.unregister n).get n = none
    ∧ (r.get n = none → ∀ m, (r.unregister n).get m = r.get m)
    ∧ (Registry.empty α).get n = none := by
  refine ⟨?_, ?_, ?_, ?_, ?_, rfl⟩
  · simp [Registry.register, Registry.get]
  · simp [Registry.register, Registry.get]
  · intro hk
    simp [Registry.register, Registry.get, hk]
  · simp [Registry.unregister, Registry.get]
  · intro h m
    by_cases hm : m = n
    · subst hm
      show (if m = m then (none : Option α) else r m) = r m
      rw [if_pos rfl]
      exact h.symm
    · simp [Registry.unregister, Registry.get, hm]

/-- Claim C10: a failed write of a Response frame (real or synthesized
502) on the client puts nothing on the wire and surfaces no error to the
handler — `writeConn` has no error return — and the Response always
carries the request's correlation id; consequently, when no frame with
that id ever reaches the server read loop, the server-side waiter is
resolved only by its own 30-second timeout. -/
theorem failed_client_write_resolves_by_timeout (req : Request)
    (lr : LocalResult) (s0 : LoopState) (evs : List PEvent)
    (h0 : s0.delivered req.id = none)
    (hev : ∀ e ∈ evs, ∀ r : Response, e = .frame (.wellFormed r) → r.id ≠ req.id) :
    writeConn (handleResponse req lr) .dropped = none
    ∧ (handleResponse req lr).id = req.id
    ∧ (send s0 req .ok evs).result = .error .handlerTimeout
    ∧ (send s0 req .ok evs).state.pending req.id = false := by
  have hid : (handleResponse req lr).id = req.id := by
    cases lr <;> rfl
  have hnone : (List.foldl pstep (registerWaiter s0 req.id) evs).delivered req.id
      = none :=
    foldl_pstep_delivered_none evs (registerWaiter s0 req.id) req.id h0 hev
  refine ⟨rfl, hid, ?_, ?_⟩
  · unfold send
    rw [hnone]
  · unfold send
    rw [hnone]
    simp [removeWaiter]

/-! ## Witnesses -/

/-- Witness for C1: a concrete send over a trace delivering one matching
frame returns that Response, whose id equals the request's. -/
theorem send_no_cross_delivery_witness :
    (send exState exReq .ok [.frame (.wellFormed exResp)]).result = .ok exResp
    ∧ exResp.id = exReq.id :=
  ⟨rfl, send_no_cross_delivery exState exReq .ok [.frame (.wellFormed exResp)]
    exResp (fun _ _ h => nomatch h) rfl⟩

/-- Witness for C2: the response-arrival/timeout race on id `"a"` — the
frame arrives and the timeout then fires — removes the entry exactly once
and delivers at most once. -/
theorem pending_resolved_exactly_once_witness :
    exPending.pending "a" = true
    ∧ ([PEvent.frame (.wellFormed exResp), PEvent.timeoutFire "a"].any
        (resolves "a") = true)
    ∧ removalCount exPending "a"
        [.frame (.wellFormed exResp), .timeoutFire "a"] = 1
    ∧ deliveryCount exPending "a"
        [.frame (.wellFormed exResp), .timeoutFire "a"] ≤ 1 :=
  ⟨rfl, rfl,
    (pending_resolved_exactly_once exPending "a"
      [.frame (.wellFormed exResp), .timeoutFire "a"] rfl rfl).1,
    (pending_resolved_exactly_once exPending "a"
      [.frame (.wellFormed exResp), .timeoutFire "a"] rfl rfl).2⟩

/-- Witness for C3: a failed write on a fresh id returns the write error
and leaves the concrete pending table unchanged at every probed key. -/
theorem send_write_failure_net_zero_witness :
    exState.pending exReq.id = false
    ∧ (send exState exReq .fail []).result = .error .writeError
    ∧ (send exState exReq .fail []).state.pending exReq.id
        = exState.pending exReq.id :=
  ⟨rfl, (send_write_failure_net_zero exState exReq [] rfl).1,
    (send_write_failure_net_zero exState exReq [] rfl).2.1 exReq.id⟩

/-- Witness for C5: six consecutive failures wait 2s, 4s, 8s, 16s, 30s,
30s, and a stop signal during the seventh wait ends the run after its
seventh connect call. -/
theorem backoff_delay_sequence_witness :
    (∀ x ∈ exFailures, connectFailed x = true)
    ∧ (runClient (exFailures.map fun x => (x, false))).delays
        = [2000, 4000, 8000, 16000, 30000, 30000]
    ∧ (runClient ((exFailures.map fun x => (x, false))
          ++ (ConnectOutcome.dialFail, true) :: [])).connects = 7 :=
  have h := backoff_delay_sequence exFailures .dialFail [] (by decide) rfl
  ⟨by decide, h.1.trans (by decide), h.2.trans (by decide)⟩

/-- Witness for C6: three dial failures followed by an established session
that drops give a fourth delay of 16s — the sequence continues. -/
theorem attempt_never_reset_witness :
    (∀ x ∈ ([ConnectOutcome.dialFail, .dialFail, .dialFail] :
        List ConnectOutcome), connectFailed x = true)
    ∧ (runClient ((([ConnectOutcome.dialFail, .dialFail, .dialFail] :
          List ConnectOutcome) ++ [ConnectOutcome.sessionDrop]).map
            fun x => (x, false))).delays = [2000, 4000, 8000, 16000] :=
  have h := attempt_never_reset [.dialFail, .dialFail, .dialFail] (by decide)
  ⟨by decide, h.trans (by decide)⟩

/-- Witness for C8: a Response with no pending entry leaves the concrete
state untouched, and a read error tears the session down. -/
theorem read_loop_error_handling_witness :
    exState.pending exResp.id = false
    ∧ readStep exState (.wellFormed exResp) = exState
    ∧ (runReadLoop "svc" exState ((Registry.empty Nat).register "svc" 7)
        [.readErr]).terminated = true
    ∧ ((runReadLoop "svc" exState ((Registry.empty Nat).register "svc" 7)
        [.readErr]).registry).get "svc" = none :=
  have h := read_loop_error_handling "svc" exState
    ((Registry.empty Nat).register "svc" 7) [] exResp rfl
  ⟨rfl, h.2.2.1, h.2.2.2.1, h.2.2.2.2.1⟩

/-- Witness for C9: concrete register/overwrite/unregister/lookup facts on
a registry of numeric handles. -/
theorem registry_semantics_witness :
    (((Registry.empty Nat).register "svc" 1).get "svc" = some 1)
    ∧ ((((Registry.empty Nat).register "svc" 2).register "svc" 1).get "svc"
        = some 1)
    ∧ (((Registry.empty Nat).register "svc" 1).get "other"
        = (Registry.empty Nat).get "other")
    ∧ (((Registry.empty Nat).unregister "svc").get "svc" = none)
    ∧ (((Registry.empty Nat).unregister "svc").get "other"
        = (Registry.empty Nat).get "other") :=
  have h := registry_semantics Nat (Registry.empty Nat) "svc" "other" 1 2
  ⟨h.1, h.2.1, h.2.2.1 (by decide), h.2.2.2.1, h.2.2.2.2.1 rfl "other"⟩

/-- Witness for C10: a locally failed request synthesizes a 502 Response
with the request's id; its dropped write puts nothing on the wire, and a
send whose wait sees no matching frame ends in the timeout error. -/
theorem failed_client_write_resolves_by_timeout_witness :
    exState.delivered exReq.id = none
    ∧ writeConn (handleResponse exReq (.failure "boom")) .dropped = none
    ∧ (handleResponse exReq (.failure "boom")).id = exReq.id
    ∧ (send exState exReq .ok [.timeoutFire "z"]).result
        = .error .handlerTimeout :=
  have h := failed_client_write_resolves_by_timeout exReq (.failure "boom")
    exState [.timeoutFire "z"] rfl
    (by
      intro e he r hfr
      simp only [List.mem_singleton] at he
      subst he
      cases hfr)
  ⟨rfl, h.1, h.2.1, h.2.2.1⟩

end Minitunnel
